import Mathlib

/-!
Verification of the concurrent process manager of `process.go`
(package actionlint): `runProcessWithStdin`, `newConcurrentProcess`,
`concurrentProcess.run` and `concurrentProcess.wait`.

The per-process classification logic of `runProcessWithStdin` is embedded
as a pure function over an environment record (`ProcEnv`) describing what
the operating system calls return on this particular run: whether creating
the stdin pipe fails, whether writing the stdin fails, and the outcome of
`cmd.Output()` (exit status 0 with captured stdout, a `*exec.ExitError`
carrying an exit code, captured stdout and captured stderr, or some other
error such as a spawn failure).

The concurrency layer (`semaphore.Weighted` gate + `errgroup.Group`) is
embedded as a small-step transition relation on a manager state.
-/

/-- Bytes of a captured stream (a Go `[]byte`), one `Nat` per byte. -/
abbrev Bytes := List Nat

/-- A Go `error` value as it appears in `process.go`.  Errors built by the
four `fmt.Errorf` call sites of the file are kept structurally (one
constructor per call site, carrying the format arguments); every error that
comes from outside the file (OS, `exec`, `io`) is `external`.  An error
built with the `%w` verb wraps its cause; the others do not. -/
inductive GoError where
  /-- An error produced outside `process.go` (OS / exec / io). -/
  | external (msg : String) : GoError
  /-- `fmt.Errorf("could not make stdin pipe for %s process: %w", exe, err)` -/
  | stdinPipeFail (exe : String) (cause : GoError) : GoError
  /-- `fmt.Errorf("could not write to stdin of %s process: %w", exe, err)` -/
  | stdinWriteFail (exe : String) (cause : GoError) : GoError
  /-- `fmt.Errorf("%s was terminated. stderr: %q", exe, exitErr.Stderr)` -/
  | terminated (exe : String) (stderr : Bytes) : GoError
  /-- `fmt.Errorf("%s exited with status %d but stdout was empty. stderr: %q", exe, code, exitErr.Stderr)` -/
  | emptyStdoutExit (exe : String) (code : Int) (stderr : Bytes) : GoError
deriving DecidableEq

/-- Rendering of captured bytes as text. -/
def bytesText (bs : Bytes) : String :=
  String.mk (bs.map Char.ofNat)

/-- Go `%q` rendering of a byte slice: the text between double quotes.
(Escaping of non-printable characters is elided in the model.) -/
def quoteBytes (bs : Bytes) : String :=
  "\x22" ++ bytesText bs ++ "\x22"

/-- The message of a Go error (`err.Error()`), following the format
strings of `process.go`. -/
def GoError.message : GoError → String
  | .external m => m
  | .stdinPipeFail exe c =>
      "could not make stdin pipe for " ++ exe ++ " process: " ++ c.message
  | .stdinWriteFail exe c =>
      "could not write to stdin of " ++ exe ++ " process: " ++ c.message
  | .terminated exe stderr =>
      exe ++ " was terminated. stderr: " ++ quoteBytes stderr
  | .emptyStdoutExit exe code stderr =>
      exe ++ " exited with status " ++ toString code ++
        " but stdout was empty. stderr: " ++ quoteBytes stderr

/-- Go `errors.Unwrap`: only the two `%w` sites wrap a cause. -/
def GoError.unwrapErr : GoError → Option GoError
  | .stdinPipeFail _ c => some c
  | .stdinWriteFail _ c => some c
  | _ => none

/-- Modelled from the spec: the `TerminatedAbnormally` error class of the
spec's taxonomy — the errors `runProcessWithStdin` builds at its
signal-termination site and its non-zero-exit-with-empty-stdout site. -/
def isTerminatedAbnormally : GoError → Bool
  | .terminated _ _ => true
  | .emptyStdoutExit _ _ _ => true
  | _ => false

/-- Substring containment on the character data of strings. -/
def strIncludes (s sub : String) : Prop :=
  ∃ l r, s.data = l ++ sub.data ++ r

/-- The result of `cmd.Output()` for one run: `ok` is a nil error with the
captured stdout (exit status 0); `exit` is a `*exec.ExitError` whose
`ExitCode()` is `code` and whose `Stderr` field is `stderr`, with `stdout`
the bytes captured before exit; `fail` is any other error (spawn or wait
failure that is not an exit error). -/
inductive CmdOutcome where
  | ok (stdout : Bytes) : CmdOutcome
  | exit (code : Int) (stdout stderr : Bytes) : CmdOutcome
  | fail (e : GoError) : CmdOutcome
deriving DecidableEq

/-- What the operating system does on one call of `runProcessWithStdin`:
whether `cmd.StdinPipe()` fails, whether writing the stdin fails, and the
outcome of `cmd.Output()`. -/
structure ProcEnv where
  stdinPipeErr : Option GoError
  writeErr : Option GoError
  outcome : CmdOutcome
deriving DecidableEq

/-- Embedding of `runProcessWithStdin` (process.go lines 31-62): the pair
returned is (stdout or nil, error or nil). -/
def runProcessWithStdin (exe : String) (_args : List String) (_stdin : String)
    (env : ProcEnv) : Option Bytes × Option GoError :=
  match env.stdinPipeErr with
  | some e => (none, some (.stdinPipeFail exe e))
  | none =>
    match env.writeErr with
    | some e => (none, some (.stdinWriteFail exe e))
    | none =>
      match env.outcome with
      | .ok stdout => (some stdout, none)
      | .exit code stdout stderr =>
          if code < 0 then
            (none, some (.terminated exe stderr))
          else if stdout.length = 0 then
            (none, some (.emptyStdoutExit exe code stderr))
          else
            -- exit status non-zero and stdout non-empty: findings reported
            (some stdout, none)
      | .fail e => (none, some e)

/-- One request handed to `concurrentProcess.run`: the executable, its
arguments, the stdin to feed it, the behaviour of the OS on this run
(`env`), and the caller's callback. -/
structure RunTask where
  exe : String
  args : List String
  stdin : String
  env : ProcEnv
  callback : Option Bytes → Option GoError → Option GoError

/-- The value the goroutine spawned by `concurrentProcess.run` for `t`
returns to the errgroup: `callback(stdout, err)` where `(stdout, err)` is
the result of `runProcessWithStdin`. -/
def unitResult (t : RunTask) : Option GoError :=
  t.callback (runProcessWithStdin t.exe t.args t.stdin t.env).1
    (runProcessWithStdin t.exe t.args t.stdin t.env).2

/-- `errgroup.Group`'s once-only error slot: the first error to land is
kept, later ones are discarded. -/
def recordErr (cur new : Option GoError) : Option GoError :=
  match cur with
  | some e => some e
  | none => new

/-- State of a `concurrentProcess` manager together with the caller's
submission queue.  `capacity` and `held` model the `semaphore.Weighted`
gate (`sema`); `running`, `done` and `firstErr` model the
`errgroup.Group` (`eg`): goroutines in flight, goroutines whose callback
has returned, and the group's first recorded error.  `pending` is the list
of tasks the caller has not yet passed to `run`, and `waitReturned` is
`some r` once `wait()` has returned `r`. -/
structure ProcState where
  capacity : Int
  held : Nat
  pending : List RunTask
  running : List RunTask
  done : List RunTask
  firstErr : Option GoError
  waitReturned : Option (Option GoError)

/-- Embedding of `newConcurrentProcess` (process.go lines 24-29): builds
the manager unconditionally, with a gate of weight `par` and an empty
errgroup.  There is no validation and no error return. -/
def newConcurrentProcess (par : Int) : ProcState :=
  { capacity := par
    held := 0
    pending := []
    running := []
    done := []
    firstErr := none
    waitReturned := none }

/-- The manager freshly built by `newConcurrentProcess par`, with the
caller about to submit `tasks` (in order) via `run` and then call `wait`. -/
def startState (par : Int) (tasks : List RunTask) : ProcState :=
  { newConcurrentProcess par with pending := tasks }

/-- Small-step semantics of the manager.

* `submit`: one call of `concurrentProcess.run` (lines 64-71) completes its
  `sema.Acquire(ctx, 1)` — possible only when a slot is free, i.e.
  `held < capacity`, since the context is `context.Background()` and never
  cancels — and spawns the goroutine via `eg.Go`.
* `finish`: one in-flight goroutine finishes: it has computed
  `runProcessWithStdin`, released the semaphore (`sema.Release(1)`), and
  its `callback` has returned; the errgroup records the returned error if
  it is the first non-nil one.
* `waitDone`: the caller's `wait()` (lines 73-75) returns: only after every
  task has been submitted and every goroutine has finished, with the
  errgroup's first recorded error as result. -/
inductive Step : ProcState → ProcState → Prop where
  | submit (s : ProcState) (t : RunTask) (rest : List RunTask)
      (hp : s.pending = t :: rest)
      (hcap : (s.held : Int) < s.capacity) :
      Step s { s with
        pending := rest
        running := t :: s.running
        held := s.held + 1 }
  | finish (s : ProcState) (t : RunTask) (l₁ l₂ : List RunTask)
      (hr : s.running = l₁ ++ t :: l₂) :
      Step s { s with
        running := l₁ ++ l₂
        done := t :: s.done
        held := s.held - 1
        firstErr := recordErr s.firstErr (unitResult t) }
  | waitDone (s : ProcState)
      (hp : s.pending = [])
      (hr : s.running = [])
      (hw : s.waitReturned = none) :
      Step s { s with waitReturned := some s.firstErr }

/-- The states the manager can be in, starting from `startState par tasks`. -/
def Reachable (par : Int) (tasks : List RunTask) (s : ProcState) : Prop :=
  Relation.ReflTransGen Step (startState par tasks) s

/-- A task whose process runs and exits with status 0 (so that
`cmd.Output()` returns a nil error and the captured stdout). -/
def exitsZero (t : RunTask) : Prop :=
  ∃ out, t.env = ⟨none, none, .ok out⟩

/-- A concrete all-success task: the process exits 0 and the callback
accepts everything. -/
def okTask : RunTask where
  exe := "shellcheck"
  args := ["--norc"]
  stdin := "script"
  env := ⟨none, none, .ok [104, 105]⟩
  callback := fun _ _ => none

/-- A concrete task whose process exits 0 but whose callback rejects the
result. -/
def cbErrTask : RunTask where
  exe := "shellcheck"
  args := ["--norc"]
  stdin := "script"
  env := ⟨none, none, .ok [104]⟩
  callback := fun _ _ => some (.external "callback rejected")

/-- The `okTask` scenario after its single submit. -/
def okMid : ProcState :=
  { capacity := 1, held := 1, pending := [], running := [okTask], done := [],
    firstErr := none, waitReturned := none }

/-- The `okTask` scenario after submit, finish and wait. -/
def okFinal : ProcState :=
  { capacity := 1, held := 0, pending := [], running := [], done := [okTask],
    firstErr := none, waitReturned := some none }

/-- The `cbErrTask` scenario after submit, finish and wait: the callback's
error is the group's first error and is the value `wait` returned. -/
def cbErrFinal : ProcState :=
  { capacity := 1, held := 0, pending := [], running := [], done := [cbErrTask],
    firstErr := some (.external "callback rejected"),
    waitReturned := some (some (.external "callback rejected")) }

/-- Whether a call of `run` could currently get past `sema.Acquire`:
there is a task left to submit and a free slot on the gate. -/
def submitEnabled (s : ProcState) : Bool :=
  !s.pending.isEmpty && decide ((s.held : Int) < s.capacity)

/-- The inductive invariant of the manager: the gate counter matches the
number of in-flight goroutines and never exceeds the capacity once any
slot is held; tasks are only moved between the three queues; the
errgroup's error slot is `some` exactly when some finished callback
returned an error; and `wait` can only have returned the group's first
error, after the queues drained. -/
structure ManagerInv (par : Int) (tasks : List RunTask) (s : ProcState) : Prop where
  cap_eq : s.capacity = par
  held_eq : s.held = s.running.length
  held_le : (s.held : Int) ≤ s.capacity ∨ s.held = 0
  perm : List.Perm (s.pending ++ s.running ++ s.done) tasks
  no_err : s.firstErr = none → ∀ t ∈ s.done, unitResult t = none
  err_wit : ∀ e, s.firstErr = some e → ∃ t ∈ s.done, unitResult t = some e
  wait_inv : ∀ r, s.waitReturned = some r →
      r = s.firstErr ∧ s.pending = [] ∧ s.running = []

theorem inv_init (par : Int) (tasks : List RunTask) :
    ManagerInv par tasks (startState par tasks) where
  cap_eq := rfl
  held_eq := rfl
  held_le := Or.inr rfl
  perm := by simp [startState, newConcurrentProcess]
  no_err := by simp [startState, newConcurrentProcess]
  err_wit := by simp [startState, newConcurrentProcess]
  wait_inv := by simp [startState, newConcurrentProcess]

theorem inv_step {par : Int} {tasks : List RunTask} {s s' : ProcState}
    (hi : ManagerInv par tasks s) (hs : Step s s') : ManagerInv par tasks s' := by
  cases hs with
  | submit t rest hp hcap =>
      refine ⟨hi.cap_eq, ?_, ?_, ?_, hi.no_err, hi.err_wit, ?_⟩
      · simpa using (hi.held_eq ▸ rfl)
      · left; push_cast; omega
      · have hm : List.Perm ((rest ++ t :: s.running) ++ s.done)
            (((t :: rest) ++ s.running) ++ s.done) :=
          List.perm_middle.append_right s.done
        exact hm.trans (by rw [← hp]; exact hi.perm)
      · intro r hwr
        obtain ⟨-, hpe, -⟩ := hi.wait_inv r hwr
        rw [hp] at hpe; simp at hpe
  | finish t l₁ l₂ hr =>
      have hlen : s.held = l₁.length + l₂.length + 1 := by
        have h := hi.held_eq; rw [hr] at h; simpa [Nat.add_comm, Nat.add_assoc,
          Nat.add_left_comm] using h
      refine ⟨hi.cap_eq, ?_, ?_, ?_, ?_, ?_, ?_⟩
      · simp only [List.length_append]; omega
      · show ((s.held - 1 : Nat) : Int) ≤ s.capacity ∨ s.held - 1 = 0
        rcases hi.held_le with h | h
        · left
          have hle : s.held - 1 ≤ s.held := Nat.sub_le _ _
          have hc : ((s.held - 1 : Nat) : Int) ≤ (s.held : Int) := by exact_mod_cast hle
          omega
        · right; omega
      · have hmid : List.Perm (l₁ ++ (l₂ ++ t :: s.done))
            (l₁ ++ (t :: (l₂ ++ s.done))) :=
          List.Perm.append_left l₁ List.perm_middle
        have hm2 : List.Perm (s.pending ++ (l₁ ++ l₂) ++ t :: s.done)
            (s.pending ++ (l₁ ++ t :: l₂) ++ s.done) := by
          have h3 := List.Perm.append_left s.pending hmid
          simpa [List.append_assoc] using h3
        exact hm2.trans (by rw [← hr]; exact hi.perm)
      · intro hnone t' ht'
        rcases hfe : s.firstErr with _ | e0
        · have hu : unitResult t = none := by
            rw [hfe] at hnone; simpa [recordErr] using hnone
          rcases List.mem_cons.mp ht' with h | h
          · subst h; exact hu
          · exact hi.no_err hfe t' h
        · rw [hfe] at hnone; simp [recordErr] at hnone
      · intro e he
        rcases hfe : s.firstErr with _ | e0
        · rw [hfe] at he; simp [recordErr] at he
          exact ⟨t, List.mem_cons_self t s.done, he⟩
        · rw [hfe] at he; simp [recordErr] at he
          obtain ⟨t', ht', hu⟩ := hi.err_wit e0 hfe
          exact ⟨t', List.mem_cons_of_mem t ht', by rw [hu, he]⟩
      · intro r hwr
        obtain ⟨-, -, hre⟩ := hi.wait_inv r hwr
        rw [hr] at hre; simp at hre
  | waitDone hp hr hw =>
      refine ⟨hi.cap_eq, hi.held_eq, hi.held_le, hi.perm, hi.no_err, hi.err_wit, ?_⟩
      intro r hwr
      have : r = s.firstErr := by
        have := hwr; simp at this; exact this.symm
      exact ⟨this, hp, hr⟩

theorem inv_reachable {par : Int} {tasks : List RunTask} {s : ProcState}
    (h : Reachable par tasks s) : ManagerInv par tasks s := by
  unfold Reachable at h
  induction h with
  | refl => exact inv_init par tasks
  | tail _ hstep ih => exact inv_step ih hstep

theorem okMid_reachable : Reachable 1 [okTask] okMid :=
  Relation.ReflTransGen.tail Relation.ReflTransGen.refl
    (Step.submit (startState 1 [okTask]) okTask [] rfl (by decide))

theorem okFinal_reachable : Reachable 1 [okTask] okFinal :=
  Relation.ReflTransGen.tail
    (Relation.ReflTransGen.tail okMid_reachable
      (Step.finish okMid okTask [] [] rfl))
    (Step.waitDone
      { capacity := 1, held := 0, pending := [], running := [], done := [okTask],
        firstErr := none, waitReturned := none } rfl rfl rfl)

theorem cbErrFinal_reachable : Reachable 1 [cbErrTask] cbErrFinal :=
  Relation.ReflTransGen.tail
    (Relation.ReflTransGen.tail
      (Relation.ReflTransGen.tail Relation.ReflTransGen.refl
        (Step.submit (startState 1 [cbErrTask]) cbErrTask [] rfl (by decide)))
      (Step.finish
        { capacity := 1, held := 1, pending := [], running := [cbErrTask],
          done := [], firstErr := none, waitReturned := none }
        cbErrTask [] [] rfl))
    (Step.waitDone
      { capacity := 1, held := 0, pending := [], running := [], done := [cbErrTask],
        firstErr := some (.external "callback rejected"), waitReturned := none }
      rfl rfl rfl)

/-- C1: when the spawned process exits with a non-zero status and its
captured standard output is non-empty, `runProcessWithStdin` returns that
captured output together with no error (the non-zero exit is the external
tool's findings convention, not a failure). -/
theorem runProcessWithStdin_findings_success (exe : String) (args : List String)
    (stdin : String) (code : Int) (stdout stderr : Bytes)
    (hcode : 0 < code) (hout : stdout ≠ []) :
    runProcessWithStdin exe args stdin ⟨none, none, .exit code stdout stderr⟩ =
      (some stdout, none) := by
  have h1 : ¬ code < 0 := by omega
  have h2 : ¬ stdout.length = 0 := by simpa [List.length_eq_zero] using hout
  simp [runProcessWithStdin, h1, h2]

theorem runProcessWithStdin_findings_success_witness :
    (0 : Int) < 1 ∧ ([102] : Bytes) ≠ [] ∧
      runProcessWithStdin "shellcheck" [] "" ⟨none, none, .exit 1 [102] [101]⟩ =
        (some [102], none) :=
  ⟨by decide, by decide,
    runProcessWithStdin_findings_success "shellcheck" [] "" 1 [102] [101]
      (by decide) (by decide)⟩

/-- C2 counterexample: when waiting on the process fails with an error
that is not an exit error, `runProcessWithStdin` returns the raw cause
itself, bare: the returned error is exactly the underlying cause and
wraps nothing, so it is not a wrapping error around the cause. -/
theorem runProcessWithStdin_wait_error_bare :
    runProcessWithStdin "shellcheck" [] ""
        ⟨none, none, .fail (.external "wait failed")⟩ =
      (none, some (.external "wait failed")) ∧
    (GoError.external "wait failed").unwrapErr = none :=
  ⟨rfl, rfl⟩

/-- C2 amended: when waiting on the process fails with an error that is
not an exit-error condition, `runProcessWithStdin` fails with the raw
underlying cause returned unchanged — the cause stays fully inspectable,
but it is surfaced bare, not wrapped inside a transport-level error. -/
theorem runProcessWithStdin_wait_error_passthrough (exe : String)
    (args : List String) (stdin : String) (e : GoError) :
    runProcessWithStdin exe args stdin ⟨none, none, .fail e⟩ = (none, some e) :=
  rfl

/-- C4: when the process exits with a non-zero, non-negative status and
its captured standard output is empty, `runProcessWithStdin` returns no
output and a non-nil TerminatedAbnormally-class error whose message
includes the exit status and the captured stderr text. -/
theorem runProcessWithStdin_empty_stdout_failure (exe : String)
    (args : List String) (stdin : String) (code : Int) (stdout stderr : Bytes)
    (hcode : 0 < code) (hout : stdout = []) :
    ∃ e, runProcessWithStdin exe args stdin ⟨none, none, .exit code stdout stderr⟩ =
        (none, some e) ∧
      isTerminatedAbnormally e = true ∧
      strIncludes e.message (toString code) ∧
      strIncludes e.message (bytesText stderr) := by
  subst hout
  refine ⟨.emptyStdoutExit exe code stderr, ?_, rfl, ?_, ?_⟩
  · have h1 : ¬ code < 0 := by omega
    simp [runProcessWithStdin, h1]
  · exact ⟨exe.data ++ " exited with status ".data,
      " but stdout was empty. stderr: ".data ++ (quoteBytes stderr).data,
      by simp [GoError.message, String.data_append, List.append_assoc]⟩
  · exact ⟨exe.data ++ " exited with status ".data ++ (toString code).data ++
        " but stdout was empty. stderr: ".data ++ "\x22".data,
      "\x22".data,
      by simp [GoError.message, quoteBytes, String.data_append, List.append_assoc]⟩

theorem runProcessWithStdin_empty_stdout_failure_witness :
    ∃ e, runProcessWithStdin "shellcheck" [] ""
        ⟨none, none, .exit 2 [] [101]⟩ = (none, some e) ∧
      isTerminatedAbnormally e = true ∧
      strIncludes e.message (toString (2 : Int)) ∧
      strIncludes e.message (bytesText [101]) :=
  runProcessWithStdin_empty_stdout_failure "shellcheck" [] "" 2 [] [101]
    (by decide) rfl

/-- C5: when the process terminated via a signal (its exit code is
reported negative/unavailable), `runProcessWithStdin` returns no output
and a non-nil TerminatedAbnormally-class error whose message includes the
captured stderr text, irrespective of the captured stdout. -/
theorem runProcessWithStdin_signal_failure (exe : String) (args : List String)
    (stdin : String) (code : Int) (stdout stderr : Bytes)
    (hcode : code < 0) :
    ∃ e, runProcessWithStdin exe args stdin ⟨none, none, .exit code stdout stderr⟩ =
        (none, some e) ∧
      isTerminatedAbnormally e = true ∧
      strIncludes e.message (bytesText stderr) := by
  refine ⟨.terminated exe stderr, ?_, rfl, ?_⟩
  · simp [runProcessWithStdin, hcode]
  · exact ⟨exe.data ++ " was terminated. stderr: ".data ++ "\x22".data,
      "\x22".data,
      by simp [GoError.message, quoteBytes, String.data_append, List.append_assoc]⟩

theorem runProcessWithStdin_signal_failure_witness :
    ∃ e, runProcessWithStdin "shellcheck" [] ""
        ⟨none, none, .exit (-1) [104] [101]⟩ = (none, some e) ∧
      isTerminatedAbnormally e = true ∧
      strIncludes e.message (bytesText [101]) :=
  runProcessWithStdin_signal_failure "shellcheck" [] "" (-1) [104] [101]
    (by decide)

/-- C10: the output and error returned by `runProcessWithStdin` are
mutually exclusive — on every path at least one of them is nil, so a
callback never receives both output bytes and a non-nil error. -/
theorem runProcessWithStdin_output_error_exclusive (exe : String)
    (args : List String) (stdin : String) (env : ProcEnv) :
    (runProcessWithStdin exe args stdin env).1 = none ∨
    (runProcessWithStdin exe args stdin env).2 = none := by
  rcases env with ⟨sp, we, oc⟩
  cases sp with
  | some e => left; rfl
  | none =>
    cases we with
    | some e => left; rfl
    | none =>
      cases oc with
      | ok stdout => right; rfl
      | fail e => left; rfl
      | exit code stdout stderr =>
        by_cases h1 : code < 0
        · left; simp [runProcessWithStdin, h1]
        · by_cases h2 : stdout.length = 0
          · left; simp [runProcessWithStdin, h1, h2]
          · right; simp [runProcessWithStdin, h1, h2]

/-- C7: for every parallelism N ≥ 1 and every list of submitted tasks, in
every reachable state the number of tasks between gate-acquire and
gate-release (the in-flight goroutines — also the semaphore's held count)
never exceeds N. -/
theorem gate_never_exceeds_capacity (N : Int) (tasks : List RunTask)
    (s : ProcState) (hN : 1 ≤ N) (hreach : Reachable N tasks s) :
    s.held = s.running.length ∧ (s.running.length : Int) ≤ N := by
  have hi := inv_reachable hreach
  refine ⟨hi.held_eq, ?_⟩
  have h1 := hi.cap_eq
  have h2 := hi.held_eq
  rcases hi.held_le with h | h <;> omega

theorem gate_never_exceeds_capacity_witness :
    (1 : Int) ≤ 1 ∧
      (okMid.held = okMid.running.length ∧ (okMid.running.length : Int) ≤ 1) :=
  ⟨by decide, gate_never_exceeds_capacity 1 [okTask] okMid (by decide)
    okMid_reachable⟩

/-- C8: wait returns only after every submitted task has finished and its
callback has returned: whenever wait has returned in a reachable state,
no task is pending or running and the finished tasks are exactly the
submitted ones — whatever errors occurred along the way, nothing was
cancelled or skipped. -/
theorem wait_is_completion_barrier (N : Int) (tasks : List RunTask)
    (s : ProcState) (r : Option GoError)
    (hreach : Reachable N tasks s) (hw : s.waitReturned = some r) :
    s.pending = [] ∧ s.running = [] ∧ List.Perm s.done tasks := by
  have hi := inv_reachable hreach
  obtain ⟨-, hp, hr⟩ := hi.wait_inv r hw
  refine ⟨hp, hr, ?_⟩
  have hperm := hi.perm
  rw [hp, hr] at hperm
  simpa using hperm

theorem wait_is_completion_barrier_witness :
    cbErrFinal.pending = [] ∧ cbErrFinal.running = [] ∧
      List.Perm cbErrFinal.done [cbErrTask] :=
  wait_is_completion_barrier 1 [cbErrTask] cbErrFinal
    (some (.external "callback rejected")) cbErrFinal_reachable rfl

/-- C9: if some submitted task's callback returns a non-nil error, then
wait returns a non-nil error, whatever the other callbacks returned: no
callback error is silently dropped. -/
theorem wait_error_of_callback_error (N : Int) (tasks : List RunTask)
    (s : ProcState) (r : Option GoError) (t : RunTask)
    (ht : t ∈ tasks) (he : unitResult t ≠ none)
    (hreach : Reachable N tasks s) (hw : s.waitReturned = some r) :
    r ≠ none := by
  have hi := inv_reachable hreach
  obtain ⟨hre, hp, hr⟩ := hi.wait_inv r hw
  have hperm := hi.perm
  rw [hp, hr] at hperm
  simp at hperm
  have htd : t ∈ s.done := hperm.mem_iff.mpr ht
  intro hrn
  rw [hrn] at hre
  exact he (hi.no_err hre.symm t htd)

theorem wait_error_of_callback_error_witness :
    cbErrTask ∈ [cbErrTask] ∧ unitResult cbErrTask ≠ none ∧
      (some (GoError.external "callback rejected") : Option GoError) ≠ none :=
  ⟨List.mem_singleton_self _, by simp [unitResult, cbErrTask],
    wait_error_of_callback_error 1 [cbErrTask] cbErrFinal
      (some (.external "callback rejected")) cbErrTask
      (List.mem_singleton_self _) (by simp [unitResult, cbErrTask])
      cbErrFinal_reachable rfl⟩

/-- C3 counterexample: a single task whose process exits with status 0
but whose callback rejects the result; wait returns the callback's error,
so wait's result is not independent of the callbacks supplied. -/
theorem wait_error_despite_zero_exit :
    exitsZero cbErrTask ∧ Reachable 1 [cbErrTask] cbErrFinal ∧
      cbErrFinal.waitReturned = some (some (.external "callback rejected")) :=
  ⟨⟨[104], rfl⟩, cbErrFinal_reachable, rfl⟩

/-- C3 amended: if every submitted task's process exits with status 0 and
every callback returns no error on a successful result, then wait returns
no error. -/
theorem wait_ok_of_zero_exit_and_accepting_callbacks (N : Int)
    (tasks : List RunTask) (s : ProcState) (r : Option GoError)
    (hz : ∀ t ∈ tasks, exitsZero t)
    (hcb : ∀ t ∈ tasks, ∀ out, t.callback (some out) none = none)
    (hreach : Reachable N tasks s) (hw : s.waitReturned = some r) :
    r = none := by
  have hi := inv_reachable hreach
  obtain ⟨hre, hp, hr⟩ := hi.wait_inv r hw
  rcases hfe : s.firstErr with _ | e0
  · rw [hre]; exact hfe
  · exfalso
    obtain ⟨t, htd, hu⟩ := hi.err_wit e0 hfe
    have hperm := hi.perm
    rw [hp, hr] at hperm
    simp at hperm
    have htt : t ∈ tasks := hperm.mem_iff.mp htd
    obtain ⟨out, henv⟩ := hz t htt
    have hun : unitResult t = none := by
      unfold unitResult
      rw [henv]
      exact hcb t htt out
    rw [hu] at hun
    exact Option.noConfusion hun

theorem wait_ok_of_zero_exit_and_accepting_callbacks_witness :
    okFinal.waitReturned = some none ∧ (none : Option GoError) = none :=
  ⟨rfl,
    wait_ok_of_zero_exit_and_accepting_callbacks 1 [okTask] okFinal none
      (fun t ht => by rw [List.mem_singleton] at ht; subst ht; exact ⟨[104, 105], rfl⟩)
      (fun t ht out => by rw [List.mem_singleton] at ht; subst ht; rfl)
      okFinal_reachable rfl⟩

/-- C6 counterexample: at parallelism 0 the constructor does not fail
fast — it has no error channel at all and succeeds, returning an ordinary
manager whose gate has capacity 0 — and from the fresh manager with one
task to submit no transition is possible: the first acquire (the submit
step) is not enabled, so the manager deadlocks instead of having been
rejected at construction. -/
theorem newConcurrentProcess_zero_succeeds :
    newConcurrentProcess 0 =
      { capacity := 0, held := 0, pending := [], running := [], done := [],
        firstErr := none, waitReturned := none } ∧
    submitEnabled (startState 0 [okTask]) = false ∧
    ¬ ∃ s', Step (startState 0 [okTask]) s' := by
  refine ⟨rfl, rfl, ?_⟩
  rintro ⟨s', hs⟩
  cases hs with
  | submit t rest hsp hcap => exact absurd hcap (by decide)
  | finish t l₁ l₂ hrr => simp [startState, newConcurrentProcess] at hrr
  | waitDone hsp hsr hsw => simp [startState, newConcurrentProcess] at hsp

/-- C6 amended: `newConcurrentProcess` performs no validation of its
parallelism argument: for any parallelism ≤ 0 construction succeeds, and
the resulting gate can never be acquired — in every reachable state no
task has ever been admitted, so the manager deadlocks on the first
acquire instead of reporting a configuration error. -/
theorem newConcurrentProcess_nonpositive_deadlock (par : Int)
    (tasks : List RunTask) (s : ProcState) (hpar : par ≤ 0)
    (hreach : Reachable par tasks s) :
    s.pending = tasks ∧ s.running = [] ∧ s.done = [] ∧ s.held = 0 := by
  unfold Reachable at hreach
  induction hreach with
  | refl => exact ⟨rfl, rfl, rfl, rfl⟩
  | tail hprev hstep ih =>
    obtain ⟨hp, hr, hd, hh⟩ := ih
    cases hstep with
    | submit t rest hsp hcap =>
      have hc := (inv_reachable hprev).cap_eq
      rw [hh, hc] at hcap
      exact absurd hcap (by omega)
    | finish t l₁ l₂ hrr =>
      rw [hr] at hrr
      exact absurd hrr (by simp)
    | waitDone hsp hsr hsw => exact ⟨hp, hr, hd, hh⟩

theorem newConcurrentProcess_nonpositive_deadlock_witness :
    (0 : Int) ≤ 0 ∧
      ((startState 0 [okTask]).pending = [okTask] ∧
        (startState 0 [okTask]).running = [] ∧
        (startState 0 [okTask]).done = [] ∧ (startState 0 [okTask]).held = 0) :=
  ⟨by decide, newConcurrentProcess_nonpositive_deadlock 0 [okTask] _ (by decide)
    Relation.ReflTransGen.refl⟩
